import Mathlib

/-!
Verification of the json-mask core (src/mask.rs, src/serialize.rs, src/json.rs).

The embedding models serde_json values as finite trees, maps as association
lists in document order (serde_json object maps have unique keys), and the
Rust HashMap of a Mask as an association list as well.  Functions that can
panic in Rust (unwrap on None, todo macros) are modelled as Option-valued
definitions where none stands for the panic.
-/

namespace JsonMask

/-- Embedding of serde_json Value (the document tree).  Numbers are modelled
as integers; the distinction between integer and floating payloads is
irrelevant to every masking operation, which never inspects a number. -/
inductive Value where
  | null : Value
  | bool : Bool → Value
  | num : Int → Value
  | str : String → Value
  | arr : List Value → Value
  | obj : List (String × Value) → Value

/-- Embedding of Mask (serialize.rs lines 6-9).  The field declaration there
is a map String to Mask, but every use site in mask.rs (parse_schema_node,
mask_object) inserts and matches Option Mask values, so the consistent type
of the properties map is String to Option Mask: none is a leaf allow, some a
recurse entry.  The name field of the struct is carried but never read. -/
inductive Mask where
  | mk : String → List (String × Option Mask) → Mask

/-- Projection for the name field of Mask. -/
def Mask.name : Mask → String
  | .mk n _ => n

/-- Projection for the properties field of Mask. -/
def Mask.properties : Mask → List (String × Option Mask)
  | .mk _ ps => ps

/-- Mask::default(): empty properties, empty name. -/
def Mask.default : Mask := .mk "" []

/-- Lookup in the properties map (HashMap::get by key). -/
def lookupProp : List (String × Option Mask) → String → Option (Option Mask)
  | [], _ => none
  | (k, v) :: rest, key => if k = key then some v else lookupProp rest key

/-- Membership test in the properties map (HashMap::contains_key). -/
def containsProp (ps : List (String × Option Mask)) (key : String) : Bool :=
  (lookupProp ps key).isSome

/-- Lookup in a document object (serde_json Map::get by key). -/
def objGet : List (String × Value) → String → Option Value
  | [], _ => none
  | (k, v) :: rest, key => if k = key then some v else objGet rest key

/-- Whether a Value is an object (Value::as_object is Some). -/
def Value.isObj : Value → Bool
  | .obj _ => true
  | _ => false

mutual

/-- Embedding of JsonMasker::mask_object (mask.rs lines 108-121): retain only
the keys present in the mask node; for a retained key whose mask entry is a
recurse entry, rewrite the value through mask_entry. -/
def mask_object (m : Mask) : List (String × Value) → List (String × Value)
  | [] => []
  | (k, v) :: rest =>
    match lookupProp (Mask.properties m) k with
    | none => mask_object m rest
    | some none => (k, v) :: mask_object m rest
    | some (some child) => (k, mask_entry child v) :: mask_object m rest
termination_by fs => sizeOf fs

/-- The body of the retain closure for a retained key carrying a child mask
(mask.rs lines 112-116): if the value is an object, prune it with the child
mask in place; any other value is left untouched. -/
def mask_entry (child : Mask) : Value → Value
  | .obj fs => .obj (mask_object child fs)
  | v => v
termination_by v => sizeOf v

end

/-- Embedding of JsonMasker::mask (mask.rs lines 102-106): the stored mask is
passed as the first argument; a non-object root is left unchanged. -/
def JsonMasker.mask (m : Mask) (v : Value) : Value :=
  match v with
  | .obj fs => .obj (mask_object m fs)
  | v => v

mutual

/-- Specification predicate for the subset property: every key of the list
is present in the mask node, and a key carried by a recurse entry has a
value that itself respects the child mask at every nested object position.
Leaf-allow entries and non-object values are not inspected further, since
no mask node corresponds to those positions. -/
def respectsFields (m : Mask) : List (String × Value) → Bool
  | [] => true
  | (k, v) :: rest =>
    (match lookupProp (Mask.properties m) k with
     | none => false
     | some none => true
     | some (some child) => respectsValue child v) && respectsFields m rest
termination_by fs => sizeOf fs

/-- Value side of respectsFields: only an object is inspected. -/
def respectsValue (m : Mask) : Value → Bool
  | .obj fs => respectsFields m fs
  | _ => true
termination_by v => sizeOf v

end

/-- A lookup in a document object only ever returns a strict subterm. -/
theorem sizeOf_objGet {fs : List (String × Value)} {key : String} {v : Value}
    (h : objGet fs key = some v) : sizeOf v < sizeOf fs := by
  induction fs with
  | nil => simp [objGet] at h
  | cons kv rest ih =>
    obtain ⟨k, w⟩ := kv
    by_cases hk : k = key
    · simp [objGet, hk] at h
      subst h
      simp only [List.cons.sizeOf_spec, Prod.mk.sizeOf_spec]
      omega
    · simp [objGet, hk] at h
      have := ih h
      simp only [List.cons.sizeOf_spec]
      omega

/-- The comparison of a type value against the string literal object made at
mask.rs line 59 (PartialEq of Value with a string compares only the String
variant). -/
def typeIsObject : Value → Bool
  | .str s => s = "object"
  | _ => false

mutual

/-- Embedding of parse_schema_node (mask.rs lines 51-70), returning the
entries the call inserts into the mask parameter (every caller passes a
freshly defaulted mask, so returning the entry list is equivalent to the
mutation).  none models the panic of the unwrap at line 57 when a declared
property value is not itself an object; the unwrap at line 54 cannot fire
because both call sites pass an object, and the non-object case is mapped to
none for faithfulness. -/
def parse_schema_node : Value → Option (List (String × Option Mask))
  | .obj fields =>
    match hp : objGet fields "properties" with
    | some (.obj propList) => parseProps propList
    | _ => some []
  | _ => none
termination_by s => sizeOf s
decreasing_by
  all_goals
    first
      | (simp_wf; omega)
      | (have hh := sizeOf_objGet hp
         simp only [Value.obj.sizeOf_spec] at hh
         simp_wf
         omega)


/-- The for loop of parse_schema_node (mask.rs lines 56-67) over the
declared properties, in iteration order. -/
def parseProps : List (String × Value) → Option (List (String × Option Mask))
  | [] => some []
  | (key, child) :: rest =>
    match child with
    | .obj cfields =>
      match objGet cfields "type" with
      | some t =>
        if typeIsObject t then
          match parse_schema_node (.obj cfields) with
          | none => none
          | some centries =>
            match parseProps rest with
            | none => none
            | some res => some ((key, some (Mask.mk "" centries)) :: res)
        else
          match parseProps rest with
          | none => none
          | some res => some ((key, none) :: res)
      | none =>
        match parseProps rest with
        | none => none
        | some res => some ((key, none) :: res)
    | _ => none
termination_by ps => sizeOf ps

end

/-- Embedding of the From implementation building a Mask from a
ValidJsonSchema (mask.rs lines 72-91).  none models a panic of the unwrap
chain at lines 76-84 (root not an object, no type key, or a non-string
type); a root whose type string is not object yields the untouched default
mask. -/
def maskFrom : Value → Option Mask
  | .obj fields =>
    match objGet fields "type" with
    | some (.str s) =>
      if s = "object" then
        match parse_schema_node (.obj fields) with
        | none => none
        | some entries => some (Mask.mk "" entries)
      else some Mask.default
    | some _ => none
    | none => none
  | _ => none

/-- Modelled from the spec: the root-shape invariant of ValidatedSchema
(spec 4.1) — the value is a JSON object holding a type key whose value is a
string.  ValidJsonSchema::new (mask.rs lines 22-34) is the code meant to
establish this, but its body is not compilable Rust (a dangling scope call,
undefined identifiers json_v4_schema and JSONSchema), so the invariant is
taken from the words of the spec. -/
def rootValid : Value → Bool
  | .obj fields =>
    match objGet fields "type" with
    | some (.str _) => true
    | _ => false
  | _ => false

mutual

/-- Modelled from the spec: the fragment guarantee spec 4.2 attributes to
the external structural validator — every declared property fragment
reached through consulted properties objects is itself a JSON object (the
draft-04 meta-schema referenced by the tests requires property values to be
schemas, hence objects).  The validator call sits in the non-compiling
ValidJsonSchema::new, so this guarantee is modelled from the spec. -/
def fragmentsWF : Value → Bool
  | .obj fields =>
    match hp : objGet fields "properties" with
    | some (.obj propList) => propsWF propList
    | _ => true
  | _ => true
termination_by s => sizeOf s
decreasing_by
  all_goals
    first
      | (simp_wf; omega)
      | (have hh := sizeOf_objGet hp
         simp only [Value.obj.sizeOf_spec] at hh
         simp_wf
         omega)


/-- Fragment well-formedness of a declared properties list: every value is
an object and recursively well formed. -/
def propsWF : List (String × Value) → Bool
  | [] => true
  | (_, child) :: rest =>
    (match child with
     | .obj cfields => fragmentsWF (.obj cfields)
     | _ => false) && propsWF rest
termination_by ps => sizeOf ps

end

/-- Reference reading of spec 4.2 step 3 for one declared property: the
builder recurses exactly when the fragment has a type key present and equal
to the string object; a fragment that is not an object, has no type key, or
any other type value, is not recursed into. -/
def childDeclaredObject : Value → Bool
  | .obj cfields =>
    match objGet cfields "type" with
    | some t => typeIsObject t
    | none => false
  | _ => false

mutual

/-- MaskBuilder reference definition, following the words of spec 4.2
steps 2-3: read the properties key if present (absent or not an object
contributes zero entries); a declared property obtains a recursively built
child mask exactly when its type is present and equal to the string object,
and a leaf allow entry in every other case. -/
def specBuildNode : Value → List (String × Option Mask)
  | .obj fields =>
    match hp : objGet fields "properties" with
    | some (.obj propList) => specProps propList
    | _ => []
  | _ => []
termination_by s => sizeOf s
decreasing_by
  all_goals
    first
      | (simp_wf; omega)
      | (have hh := sizeOf_objGet hp
         simp only [Value.obj.sizeOf_spec] at hh
         simp_wf
         omega)


/-- Property walk of the reference builder of spec 4.2 step 3. -/
def specProps : List (String × Value) → List (String × Option Mask)
  | [] => []
  | (key, child) :: rest =>
    (key,
      if childDeclaredObject child then some (Mask.mk "" (specBuildNode child)) else none)
      :: specProps rest
termination_by ps => sizeOf ps

end

/-- MaskBuilder reference definition, spec 4.2 step 1 joined with steps 2-3:
a root whose type is not the literal string object builds an empty Mask;
otherwise the walk starts from the root. -/
def specMask (schema : Value) : Mask :=
  match schema with
  | .obj fields =>
    match objGet fields "type" with
    | some (.str s) =>
      if s = "object" then Mask.mk "" (specBuildNode (.obj fields)) else Mask.mk "" []
    | _ => Mask.mk "" []
  | _ => Mask.mk "" []

/-- Output-side model of the struct emission path (json.rs to_writer with a
typed value): serialize_struct of MaskedSerializer (serialize.rs lines
219-222) wraps the underlying struct serializer, and each field then passes
through serialize_field of MaskedSerializeStructWrapper (lines 27-33),
which forwards the pair to the wrapped serializer when the key is contained
in the mask properties and suppresses it otherwise.  A forwarded value is
serialized by the wrapped serializer itself, hence verbatim; the source
call at line 29 is written without its arguments (it does not compile as
written) and is modelled as forwarding the received key and value, the only
arity the trait admits.  No child interceptor wrapping a child mask is
created anywhere on this path. -/
def masked_struct_emission (m : Mask) (fields : List (String × Value)) :
    List (String × Value) :=
  fields.filter fun kv => containsProp (Mask.properties m) kv.fst

/-- Error-flow model of serialize_field of MaskedSerializeStructWrapper
(serialize.rs lines 27-33).  When the key is allowed the wrapped call runs,
but the method body ends in an unconditional Ok(()), so the Result of the
wrapped call (the sink argument here) is discarded and can never reach the
caller. -/
def serialize_field_result (m : Mask) (sink : Except String Unit) (key : String) :
    Except String Unit :=
  if containsProp (Mask.properties m) key then
    let _ := sink
    Except.ok ()
  else Except.ok ()

/-- Embedding of MaskedSerializeMapWrapper::serialize_entry (serialize.rs
lines 69-71): the body is the todo macro, an unconditional panic, modelled
as none. -/
def mapWrapper_serialize_entry (_key : String) (_v : Value) : Option Unit := none

/-- Embedding of the end method of MaskedSerializeMapWrapper (serialize.rs
lines 73-75): the body is the todo macro, an unconditional panic, modelled
as none. -/
def mapWrapper_endEmission : Option Unit := none

/-- The emission forms of the serde Serializer protocol that do not open the
object or map sub-protocols, one constructor per forwarding method of the
Serializer implementation of MaskedSerializer (serialize.rs lines 106-212).
Machine integers are carried as Int or Nat, float payloads as Float, and
the opaque serializable payloads of some, newtype_struct and
newtype_variant as document values. -/
inductive Emission where
  | eBool : Bool → Emission
  | eI8 : Int → Emission
  | eI16 : Int → Emission
  | eI32 : Int → Emission
  | eI64 : Int → Emission
  | eI128 : Int → Emission
  | eU8 : Nat → Emission
  | eU16 : Nat → Emission
  | eU32 : Nat → Emission
  | eU64 : Nat → Emission
  | eU128 : Nat → Emission
  | eF32 : Float → Emission
  | eF64 : Float → Emission
  | eChar : Char → Emission
  | eStr : String → Emission
  | eBytes : List Nat → Emission
  | eNone : Emission
  | eSome : Value → Emission
  | eUnit : Emission
  | eUnitStruct : String → Emission
  | eUnitVariant : String → Nat → String → Emission
  | eNewtypeStruct : String → Value → Emission
  | eNewtypeVariant : String → Nat → String → Value → Emission
  | eSeq : Option Nat → Emission
  | eTuple : Nat → Emission
  | eTupleStruct : String → Nat → Emission
  | eTupleVariant : String → Nat → String → Nat → Emission

/-- Embedding of the Serializer implementation of MaskedSerializer outside
the object and map protocols (serialize.rs lines 106-212): every method is
a case here and each forwards its arguments to the identical method of the
wrapped serializer, modelled as an abstract sink from emission forms to a
result.  The mask field is carried but not consulted by any of these
methods. -/
def MaskedSerializer.dispatch {E A : Type} (_m : Mask) (sink : Emission → Except E A) :
    Emission → Except E A
  | .eBool v => sink (.eBool v)
  | .eI8 v => sink (.eI8 v)
  | .eI16 v => sink (.eI16 v)
  | .eI32 v => sink (.eI32 v)
  | .eI64 v => sink (.eI64 v)
  | .eI128 v => sink (.eI128 v)
  | .eU8 v => sink (.eU8 v)
  | .eU16 v => sink (.eU16 v)
  | .eU32 v => sink (.eU32 v)
  | .eU64 v => sink (.eU64 v)
  | .eU128 v => sink (.eU128 v)
  | .eF32 v => sink (.eF32 v)
  | .eF64 v => sink (.eF64 v)
  | .eChar v => sink (.eChar v)
  | .eStr v => sink (.eStr v)
  | .eBytes v => sink (.eBytes v)
  | .eNone => sink .eNone
  | .eSome v => sink (.eSome v)
  | .eUnit => sink .eUnit
  | .eUnitStruct name => sink (.eUnitStruct name)
  | .eUnitVariant name idx variant => sink (.eUnitVariant name idx variant)
  | .eNewtypeStruct name v => sink (.eNewtypeStruct name v)
  | .eNewtypeVariant name idx variant v => sink (.eNewtypeVariant name idx variant v)
  | .eSeq len => sink (.eSeq len)
  | .eTuple len => sink (.eTuple len)
  | .eTupleStruct name len => sink (.eTupleStruct name len)
  | .eTupleVariant name idx variant len => sink (.eTupleVariant name idx variant len)

/-- Keys of an object value, observation used to separate documents. -/
def Value.keys : Value → List String
  | .obj fs => fs.map Prod.fst
  | _ => []

/-- Observation of a document: the key list of the object stored under the
timestamp key, used to distinguish two concrete documents. -/
def timestampKeys : Value → Option (List String)
  | .obj fs => (objGet fs "timestamp").map Value.keys
  | _ => none

/-- Pruning a list a second time with the same mask changes nothing: the
kept keys look up the same entries, leaf allows stay verbatim, and recurse
entries re-prune an already pruned value. -/
theorem mask_object_idem :
    ∀ (m : Mask) (fs : List (String × Value)),
      mask_object m (mask_object m fs) = mask_object m fs := by
  refine mask_object.induct
    (fun m fs => mask_object m (mask_object m fs) = mask_object m fs)
    (fun c v => mask_entry c (mask_entry c v) = mask_entry c v)
    ?_ ?_ ?_ ?_ ?_ ?_
  · intro m
    simp [mask_object]
  · intro m k v rest hl ih
    simp [mask_object, hl, ih]
  · intro m k v rest hl ih
    simp [mask_object, hl, ih]
  · intro m k v rest child hl ihv ihr
    simp [mask_object, hl, ihv, ihr]
  · intro c fs ih
    simp [mask_entry, ih]
  · intro c v hv
    cases v with
    | obj fs => exact absurd rfl (hv fs)
    | null => simp [mask_entry]
    | bool b => simp [mask_entry]
    | num n => simp [mask_entry]
    | str s => simp [mask_entry]
    | arr xs => simp [mask_entry]

/-- Re-masking a value already produced by mask_entry is the identity. -/
theorem mask_entry_idem (c : Mask) (v : Value) :
    mask_entry c (mask_entry c v) = mask_entry c v := by
  cases v <;> simp [mask_entry, mask_object_idem]

/-- The pruned field list satisfies the subset predicate. -/
theorem respects_mask_object :
    ∀ (m : Mask) (fs : List (String × Value)),
      respectsFields m (mask_object m fs) = true := by
  refine mask_object.induct
    (fun m fs => respectsFields m (mask_object m fs) = true)
    (fun c v => respectsValue c (mask_entry c v) = true)
    ?_ ?_ ?_ ?_ ?_ ?_
  · intro m
    simp [mask_object, respectsFields]
  · intro m k v rest hl ih
    simp [mask_object, hl, ih]
  · intro m k v rest hl ih
    simp [mask_object, respectsFields, hl, ih]
  · intro m k v rest child hl ihv ihr
    simp [mask_object, respectsFields, hl, ihv, ihr]
  · intro c fs ih
    simp [mask_entry, respectsValue, ih]
  · intro c v hv
    cases v with
    | obj fs => exact absurd rfl (hv fs)
    | null => simp [mask_entry, respectsValue]
    | bool b => simp [mask_entry, respectsValue]
    | num n => simp [mask_entry, respectsValue]
    | str s => simp [mask_entry, respectsValue]
    | arr xs => simp [mask_entry, respectsValue]

/-- A pair kept by the mask through a recurse entry, whose value is not an
object, survives pruning with its value untouched. -/
theorem mem_mask_object_of_non_object (m : Mask) (fs : List (String × Value))
    (k : String) (v : Value) (c : Mask)
    (hmem : (k, v) ∈ fs) (hl : lookupProp (Mask.properties m) k = some (some c))
    (hv : Value.isObj v = false) : (k, v) ∈ mask_object m fs := by
  induction fs with
  | nil => simp at hmem
  | cons kv rest ih =>
    obtain ⟨k0, v0⟩ := kv
    rcases List.mem_cons.mp hmem with heq | hmem2
    · injection heq with h1 h2
      subst h1
      subst h2
      have hent : mask_entry c v = v := by
        cases v with
        | obj fs2 => simp [Value.isObj] at hv
        | null => simp [mask_entry]
        | bool b => simp [mask_entry]
        | num n => simp [mask_entry]
        | str s => simp [mask_entry]
        | arr xs => simp [mask_entry]
      simp [mask_object, hl, hent]
    · have ihm := ih hmem2
      rcases h0 : lookupProp (Mask.properties m) k0 with _ | mc
      · simpa [mask_object, h0] using ihm
      · cases mc with
        | none =>
          simp [mask_object, h0]
          exact Or.inr ihm
        | some child =>
          simp [mask_object, h0]
          exact Or.inr ihm

/-- Case lemma: parse_schema_node on an object with no properties key. -/
theorem parse_schema_node_none (fields : List (String × Value))
    (hp : objGet fields "properties" = none) :
    parse_schema_node (.obj fields) = some [] := by
  simp only [parse_schema_node]
  split <;> simp_all

/-- Case lemma: parse_schema_node on an object whose properties key holds an
object enters the property loop. -/
theorem parse_schema_node_obj (fields pl : List (String × Value))
    (hp : objGet fields "properties" = some (.obj pl)) :
    parse_schema_node (.obj fields) = parseProps pl := by
  simp only [parse_schema_node]
  split <;> simp_all

/-- Case lemma: parse_schema_node on an object whose properties key holds a
non-object contributes no entries. -/
theorem parse_schema_node_nonobj (fields : List (String × Value)) (props : Value)
    (hp : objGet fields "properties" = some props) (hnp : Value.isObj props = false) :
    parse_schema_node (.obj fields) = some [] := by
  simp only [parse_schema_node]
  split
  · rename_i pl hq
    rw [hp] at hq
    injection hq with hq2
    subst hq2
    simp [Value.isObj] at hnp
  · rfl

/-- Case lemma: fragmentsWF on an object with no properties key. -/
theorem fragmentsWF_none (fields : List (String × Value))
    (hp : objGet fields "properties" = none) :
    fragmentsWF (.obj fields) = true := by
  simp only [fragmentsWF]
  split <;> simp_all

/-- Case lemma: fragmentsWF on an object whose properties key holds an
object checks the entries. -/
theorem fragmentsWF_obj (fields pl : List (String × Value))
    (hp : objGet fields "properties" = some (.obj pl)) :
    fragmentsWF (.obj fields) = propsWF pl := by
  simp only [fragmentsWF]
  split <;> simp_all

/-- Case lemma: specBuildNode on an object with no properties key. -/
theorem specBuildNode_none (fields : List (String × Value))
    (hp : objGet fields "properties" = none) :
    specBuildNode (.obj fields) = [] := by
  simp only [specBuildNode]
  split <;> simp_all

/-- Case lemma: specBuildNode on an object whose properties key holds an
object walks the entries. -/
theorem specBuildNode_obj (fields pl : List (String × Value))
    (hp : objGet fields "properties" = some (.obj pl)) :
    specBuildNode (.obj fields) = specProps pl := by
  simp only [specBuildNode]
  split <;> simp_all

/-- Case lemma: specBuildNode on an object whose properties key holds a
non-object contributes no entries. -/
theorem specBuildNode_nonobj (fields : List (String × Value)) (props : Value)
    (hp : objGet fields "properties" = some props) (hnp : Value.isObj props = false) :
    specBuildNode (.obj fields) = [] := by
  simp only [specBuildNode]
  split
  · rename_i pl hq
    rw [hp] at hq
    injection hq with hq2
    subst hq2
    simp [Value.isObj] at hnp
  · rfl

/-- Under fragment well-formedness the loop of parse_schema_node never hits
the panicking unwrap and produces exactly the entries of the reference
builder of the spec.  Strong induction over the size of the inputs covers
the mutual recursion between the node walk and the property loop. -/
theorem parseProps_spec_aux :
    ∀ (n : Nat) (ps : List (String × Value)), sizeOf ps ≤ n → propsWF ps = true →
      parseProps ps = some (specProps ps) := by
  intro n
  induction n using Nat.strong_induction_on with
  | _ n ih =>
    have node : ∀ (cfields : List (String × Value)), sizeOf cfields < n →
        fragmentsWF (.obj cfields) = true →
        parse_schema_node (.obj cfields) = some (specBuildNode (.obj cfields)) := by
      intro cfields hc hf
      rcases hp : objGet cfields "properties" with _ | props
      · rw [parse_schema_node_none cfields hp, specBuildNode_none cfields hp]
      · cases props with
        | obj pl =>
          have hszpl : sizeOf pl < n := by
            have := sizeOf_objGet hp
            simp only [Value.obj.sizeOf_spec] at this
            omega
          have hwfp : propsWF pl = true := by
            rw [fragmentsWF_obj cfields pl hp] at hf
            exact hf
          rw [parse_schema_node_obj cfields pl hp, specBuildNode_obj cfields pl hp,
            ih (sizeOf pl) hszpl pl le_rfl hwfp]
        | null =>
          rw [parse_schema_node_nonobj cfields _ hp rfl, specBuildNode_nonobj cfields _ hp rfl]
        | bool b =>
          rw [parse_schema_node_nonobj cfields _ hp rfl, specBuildNode_nonobj cfields _ hp rfl]
        | num i =>
          rw [parse_schema_node_nonobj cfields _ hp rfl, specBuildNode_nonobj cfields _ hp rfl]
        | str s =>
          rw [parse_schema_node_nonobj cfields _ hp rfl, specBuildNode_nonobj cfields _ hp rfl]
        | arr xs =>
          rw [parse_schema_node_nonobj cfields _ hp rfl, specBuildNode_nonobj cfields _ hp rfl]
    intro ps hsz hwf
    cases ps with
    | nil => simp [parseProps, specProps]
    | cons kv rest =>
      obtain ⟨key, child⟩ := kv
      cases child with
      | obj cfields =>
        simp only [propsWF, Bool.and_eq_true] at hwf
        have hszr : sizeOf rest < n := by
          simp only [List.cons.sizeOf_spec] at hsz
          omega
        have hszc : sizeOf cfields < n := by
          simp only [List.cons.sizeOf_spec, Prod.mk.sizeOf_spec,
            Value.obj.sizeOf_spec] at hsz
          omega
        have hrest : parseProps rest = some (specProps rest) :=
          ih (sizeOf rest) hszr rest le_rfl hwf.2
        have hnode := node cfields hszc hwf.1
        rcases ht : objGet cfields "type" with _ | t
        · simp [parseProps, specProps, childDeclaredObject, ht, hrest]
        · by_cases hti : typeIsObject t = true
          · simp [parseProps, specProps, childDeclaredObject, ht, hti, hnode, hrest]
          · simp [parseProps, specProps, childDeclaredObject, ht, hti, hrest]
      | null => simp [propsWF] at hwf
      | bool b => simp [propsWF] at hwf
      | num i => simp [propsWF] at hwf
      | str s => simp [propsWF] at hwf
      | arr xs => simp [propsWF] at hwf

/-- Instance of parseProps_spec_aux at the size of the list itself. -/
theorem parseProps_spec (ps : List (String × Value)) (hwf : propsWF ps = true) :
    parseProps ps = some (specProps ps) :=
  parseProps_spec_aux (sizeOf ps) ps le_rfl hwf

/-- Node-level counterpart of parseProps_spec. -/
theorem parse_schema_node_spec (fields : List (String × Value))
    (hf : fragmentsWF (.obj fields) = true) :
    parse_schema_node (.obj fields) = some (specBuildNode (.obj fields)) := by
  rcases hp : objGet fields "properties" with _ | props
  · rw [parse_schema_node_none fields hp, specBuildNode_none fields hp]
  · cases props with
    | obj pl =>
      have hwfp : propsWF pl = true := by
        rw [fragmentsWF_obj fields pl hp] at hf
        exact hf
      rw [parse_schema_node_obj fields pl hp, specBuildNode_obj fields pl hp,
        parseProps_spec pl hwfp]
    | null =>
      rw [parse_schema_node_nonobj fields _ hp rfl, specBuildNode_nonobj fields _ hp rfl]
    | bool b =>
      rw [parse_schema_node_nonobj fields _ hp rfl, specBuildNode_nonobj fields _ hp rfl]
    | num i =>
      rw [parse_schema_node_nonobj fields _ hp rfl, specBuildNode_nonobj fields _ hp rfl]
    | str s =>
      rw [parse_schema_node_nonobj fields _ hp rfl, specBuildNode_nonobj fields _ hp rfl]
    | arr xs =>
      rw [parse_schema_node_nonobj fields _ hp rfl, specBuildNode_nonobj fields _ hp rfl]

/-- C7: for every JSON document D and every mask M, applying JsonMasker
mask twice with the same M yields the same document as applying it once:
pruning an already pruned document changes nothing further. -/
theorem mask_idempotent (m : Mask) (v : Value) :
    JsonMasker.mask m (JsonMasker.mask m v) = JsonMasker.mask m v := by
  cases v with
  | obj fs => simp [JsonMasker.mask, mask_object_idem]
  | null => rfl
  | bool b => rfl
  | num n => rfl
  | str s => rfl
  | arr xs => rfl

/-- C8: every key retained at any object position of the pruned output is a
key present in the mask node at the corresponding tree position, expressed
through the respects predicates that walk output and mask together. -/
theorem mask_subset_property (m : Mask) (v : Value) :
    respectsValue m (JsonMasker.mask m v) = true := by
  cases v with
  | obj fs => simp [JsonMasker.mask, respectsValue, respects_mask_object]
  | null => simp [JsonMasker.mask, respectsValue]
  | bool b => simp [JsonMasker.mask, respectsValue]
  | num n => simp [JsonMasker.mask, respectsValue]
  | str s => simp [JsonMasker.mask, respectsValue]
  | arr xs => simp [JsonMasker.mask, respectsValue]

/-- C9: pruning never alters a non-object value: a non-object root is left
unchanged by JsonMasker mask, and a retained pair whose mask entry is a
recurse entry but whose value is not an object survives pruning with its
value unmodified. -/
theorem mask_non_object_tolerance :
    (∀ (m : Mask) (v : Value), Value.isObj v = false → JsonMasker.mask m v = v) ∧
    (∀ (m : Mask) (fs : List (String × Value)) (k : String) (v : Value) (c : Mask),
      (k, v) ∈ fs → lookupProp (Mask.properties m) k = some (some c) →
      Value.isObj v = false → (k, v) ∈ mask_object m fs) := by
  constructor
  · intro m v hv
    cases v with
    | obj fs => simp [Value.isObj] at hv
    | null => rfl
    | bool b => rfl
    | num n => rfl
    | str s => rfl
    | arr xs => rfl
  · intro m fs k v c hmem hl hv
    exact mem_mask_object_of_non_object m fs k v c hmem hl hv

/-- Witness for C9: a string root passes through pruning unchanged, and a
pair kept through a recurse entry with a string value survives verbatim. -/
theorem mask_non_object_tolerance_witness :
    JsonMasker.mask (Mask.mk "" [("a", none)]) (Value.str "plain") = Value.str "plain" ∧
    ("t", Value.str "x") ∈ mask_object (Mask.mk "" [("t", some (Mask.mk "" [("c", none)]))])
      [("nope", Value.num 1), ("t", Value.str "x")] :=
  ⟨mask_non_object_tolerance.1 _ _ rfl,
   mask_non_object_tolerance.2 _ _ _ _ (Mask.mk "" [("c", none)]) (by simp)
     (by simp [lookupProp, Mask.properties]) rfl⟩

/-- C10: outside the object and map protocols the masked serializer is an
identity wrapper: dispatch forwards every emission form to the underlying
sink unchanged and returns exactly its result, success or error. -/
theorem masked_serializer_identity_outside_objects
    (E A : Type) (m : Mask) (sink : Emission → Except E A) (e : Emission) :
    MaskedSerializer.dispatch m sink e = sink e := by
  cases e <;> rfl

/-- C1 (failing for the code): pruning the document and comparing with the
masked streaming emission of the same value diverges, because the streaming
struct path forwards an allowed field whole and never applies the child
mask; at this input the pruner drops the nested key bar while the streaming
path emits it. -/
theorem stream_prune_divergence :
    JsonMasker.mask
        (Mask.mk "" [("nonce", none), ("vmId", none),
          ("timestamp", some (Mask.mk "" [("createdOn", none), ("expiresOn", none)]))])
        (Value.obj [("nonce", Value.num 12345),
          ("timestamp", Value.obj [("createdOn", Value.str "2023-07-28"),
            ("bar", Value.str "bar-value")])])
      ≠ Value.obj (masked_struct_emission
        (Mask.mk "" [("nonce", none), ("vmId", none),
          ("timestamp", some (Mask.mk "" [("createdOn", none), ("expiresOn", none)]))])
        [("nonce", Value.num 12345),
          ("timestamp", Value.obj [("createdOn", Value.str "2023-07-28"),
            ("bar", Value.str "bar-value")])]) := by
  intro h
  have h2 := congrArg timestampKeys h
  simp [timestampKeys, JsonMasker.mask, mask_object, mask_entry, masked_struct_emission,
    containsProp, lookupProp, objGet, Value.keys, Mask.properties] at h2

/-- C2 (failing for the code): the struct interception path suppresses the
absent key foo but forwards the field allowed with a child mask verbatim,
never substituting a child interceptor, so the nested disallowed key bar
survives in the emission. -/
theorem masked_struct_no_nested_interception :
    masked_struct_emission
        (Mask.mk "" [("nonce", none), ("timestamp", some (Mask.mk "" [("createdOn", none)]))])
        [("foo", Value.str "foo-value"),
          ("timestamp", Value.obj [("createdOn", Value.str "c"), ("bar", Value.str "y")])]
      = [("timestamp", Value.obj [("createdOn", Value.str "c"), ("bar", Value.str "y")])] := by
  rfl

/-- C6 (failing for the code): the masked layer swallows a sink error in
serialize_field, whose body ends in an unconditional Ok, and the map
wrapper originates its own failure through the todo panic, so errors are
neither passed through unchanged nor confined to the underlying sink. -/
theorem masked_error_not_passed_through :
    serialize_field_result (Mask.mk "" [("nonce", none)]) (Except.error "sink failure") "nonce"
        = Except.ok () ∧
    mapWrapper_serialize_entry "key" Value.null = none ∧
    mapWrapper_endEmission = none :=
  ⟨rfl, rfl, rfl⟩

/-- C3 counterexample: a schema whose declared property a holds the scalar
value five makes parse_schema_node hit the unwrap panic of mask.rs line 57
(none in this model), so mask building does fail there and such a fragment
is not treated as a leaf allow. -/
theorem maskFrom_scalar_fragment_panics :
    maskFrom (Value.obj [("type", Value.str "object"),
      ("properties", Value.obj [("a", Value.num 5)])]) = none := by
  simp [maskFrom, parse_schema_node, parseProps, objGet]

/-- C3 (amended): for every schema with the validated root shape all of
whose declared property fragments are JSON objects (the guarantee the spec
attributes to the external validator), building the mask never fails or
panics; a fragment without an object type then yields a leaf allow per the
builder equations. -/
theorem maskFrom_total_of_object_fragments (s : Value)
    (hroot : rootValid s = true) (hfrag : fragmentsWF s = true) :
    (maskFrom s).isSome = true := by
  cases s with
  | obj fields =>
    rcases ht : objGet fields "type" with _ | t
    · simp [rootValid, ht] at hroot
    · cases t with
      | str ts =>
        by_cases hobj : ts = "object"
        · subst hobj
          have hp := parse_schema_node_spec fields hfrag
          simp [maskFrom, ht, hp]
        · simp [maskFrom, ht, hobj]
      | null => simp [rootValid, ht] at hroot
      | bool b => simp [rootValid, ht] at hroot
      | num i => simp [rootValid, ht] at hroot
      | arr xs => simp [rootValid, ht] at hroot
      | obj o => simp [rootValid, ht] at hroot
  | null => simp [rootValid] at hroot
  | bool b => simp [rootValid] at hroot
  | num i => simp [rootValid] at hroot
  | str s2 => simp [rootValid] at hroot
  | arr xs => simp [rootValid] at hroot

/-- Witness for C3 at a concrete schema with one string-typed property. -/
theorem maskFrom_total_of_object_fragments_witness :
    (maskFrom (Value.obj [("type", Value.str "object"),
      ("properties", Value.obj [("nonce", Value.obj [("type", Value.str "string")])])])).isSome
      = true :=
  maskFrom_total_of_object_fragments _ (by decide)
    (by simp [fragmentsWF, propsWF, objGet])

/-- C4: under the validated root shape and the fragment guarantee of the
external validator, the built mask agrees exactly with the reference
builder read off the spec: empty when the root type is not the literal
string object, and otherwise a recursive walk inserting a child mask
exactly for fragments typed object and a leaf allow in every other case. -/
theorem maskFrom_agrees_with_spec_builder (s : Value)
    (hroot : rootValid s = true) (hfrag : fragmentsWF s = true) :
    maskFrom s = some (specMask s) := by
  cases s with
  | obj fields =>
    rcases ht : objGet fields "type" with _ | t
    · simp [rootValid, ht] at hroot
    · cases t with
      | str ts =>
        by_cases hobj : ts = "object"
        · subst hobj
          have hp := parse_schema_node_spec fields hfrag
          simp [maskFrom, specMask, ht, hp]
        · simp [maskFrom, specMask, ht, hobj, Mask.default]
      | null => simp [rootValid, ht] at hroot
      | bool b => simp [rootValid, ht] at hroot
      | num i => simp [rootValid, ht] at hroot
      | arr xs => simp [rootValid, ht] at hroot
      | obj o => simp [rootValid, ht] at hroot
  | null => simp [rootValid] at hroot
  | bool b => simp [rootValid] at hroot
  | num i => simp [rootValid] at hroot
  | str s2 => simp [rootValid] at hroot
  | arr xs => simp [rootValid] at hroot

/-- Witness for C4 at a concrete nested schema: one string-typed property
and one object-typed property with a string-typed nested property. -/
theorem maskFrom_agrees_with_spec_builder_witness :
    maskFrom (Value.obj [("type", Value.str "object"),
      ("properties", Value.obj [
        ("vmId", Value.obj [("type", Value.str "string")]),
        ("timestamp", Value.obj [("type", Value.str "object"),
          ("properties", Value.obj [("createdOn",
            Value.obj [("type", Value.str "string")])])])])])
      = some (specMask (Value.obj [("type", Value.str "object"),
        ("properties", Value.obj [
          ("vmId", Value.obj [("type", Value.str "string")]),
          ("timestamp", Value.obj [("type", Value.str "object"),
            ("properties", Value.obj [("createdOn",
              Value.obj [("type", Value.str "string")])])])])])) :=
  maskFrom_agrees_with_spec_builder _ (by decide)
    (by simp [fragmentsWF, propsWF, objGet])

end JsonMask
